import Mathlib

/-! Verification of the PaperMind retrieval pipeline (backend/app.py,
backend/utils/embedding_service.py, backend/utils/data_sources.py,
backend/fetch_arxiv.py).

Modelling conventions:
* Python strings are sequences of code points, embedded as `List Char`
  (named `Str`); each Python string operation used by the code is embedded
  as a structural recursion so that concrete instances evaluate.
  Lowercasing is modelled on the ASCII range, which is the range the
  deduplication keys and cache keys exercise.
* The embedding backend (SentenceTransformer / openai.Embedding.create) is
  an external collaborator; it is embedded as a function
  `Str → Option Vec`, `none` meaning the backend raised.
* Vectors are `List ℚ`, the exact-arithmetic reading of the float vectors.
* faiss.IndexFlatL2.search is an external library call; it is embedded by
  its contract: exact squared-L2 distances of the query against every
  stored vector, returned as the first k index/distance pairs in
  ascending-distance order (stable in the original insertion order).
* Fallible Python code is embedded as `Except`; a try/except block is a
  `match` on the `Except` value of its body.  HTTP transport, HTTP status
  and body parsing are embedded by an `HttpResult` outcome type.
-/

namespace PaperMind

/-- Python strings as sequences of code points. -/
abbrev Str := List Char

/-- Embed a Lean string literal as a `Str`. -/
def str (s : String) : Str := s.data

/-- Embedding vectors, read over exact rational arithmetic. -/
abbrev Vec := List ℚ

/-- The `EmbeddingService.embedding_cache` dict: raw text to vector. -/
abbrev Cache := List (Str × Vec)

/-- Python `str.lower()` on the ASCII range. -/
def pyLower (s : Str) : Str := s.map Char.toLower

/-- Python `s.replace(c, "")` for a one-character pattern. -/
def removeAll (c : Char) (s : Str) : Str := s.filter (fun a => a != c)

/-- Python `s.replace(c, r)` for one-character pattern and replacement. -/
def replaceChar (c r : Char) (s : Str) : Str :=
  s.map (fun a => if a = c then r else a)

/-- Python `s.strip()`: whitespace removed from both ends. -/
def pyStrip (s : Str) : Str :=
  ((s.dropWhile Char.isWhitespace).reverse.dropWhile Char.isWhitespace).reverse

/-- Python `s.split(c)[-1]`: the segment after the last separator. -/
def lastSegment (c : Char) (s : Str) : Str :=
  (s.reverse.takeWhile (fun a => a != c)).reverse

/-- The normalized `Paper` record produced by every fetcher
(`app.py` Paper / the dicts built in `data_sources.py`).  Fields that only
some fetchers populate carry defaults, matching absent dict keys. -/
structure Paper where
  id : Str
  title : Str
  abstract : Str
  authors : List Str
  published : Str
  url : Str
  source : Str
  citation_count : Option Nat := none
  publication_types : List Str := []
  updated : Option Str := none
  pdf_url : Option Str := none
  categories : List Str := []
deriving DecidableEq, Repr

/-- The `app.py` `fetch_all_papers` dedup key: the title lower-cased,
space characters removed, truncated to the first 50 characters. -/
def titleKeyApp (t : Str) : Str := ((removeAll ' ' (pyLower t))).take 50

/-- The `data_sources.py` `_deduplicate_papers` key: the title
lower-cased, space characters and hyphens removed, truncated to the first
50 characters. -/
def titleKeyDS (t : Str) : Str :=
  (removeAll '-' (removeAll ' ' (pyLower t))).take 50

/-- The dedup key as the SPEC words it (for comparison with the code):
title lower-cased, ALL whitespace stripped, truncated to 50 characters. -/
def specTitleKey (t : Str) : Str :=
  ((pyLower t).filter (fun c => !c.isWhitespace)).take 50

/-- The first-occurrence-wins loop shared by `fetch_all_papers` and
`_deduplicate_papers`: walk the list, keep a paper iff its key is not in
`seen`, adding kept keys to `seen`. -/
def dedupFrom (key : Str → Str) (seen : List Str) : List Paper → List Paper
  | [] => []
  | p :: ps =>
    if key p.title ∈ seen then dedupFrom key seen ps
    else p :: dedupFrom key (key p.title :: seen) ps

/-- Deduplication as the claim words it: the first occurrence of each key
survives, every later paper with the same key is dropped. -/
def dedupFirst (key : Str → Str) : List Paper → List Paper
  | [] => []
  | p :: ps =>
    p :: dedupFirst key (ps.filter (fun q => key q.title != key p.title))
  termination_by l => l.length
  decreasing_by
    simp only [List.length_cons]
    exact Nat.lt_succ_of_le (List.length_filter_le _ _)

namespace EmbeddingService

/-- Text cleaning inside `EmbeddingService.get_embedding`: newlines
replaced by spaces, stripped, truncated to 8000 characters. -/
def cleanText (t : Str) : Str :=
  let cleaned := pyStrip (replaceChar '\n' ' ' t)
  if cleaned.length > 8000 then cleaned.take 8000 else cleaned

/-- Observable outcome of one `get_embedding` call: the returned value or
raised error, the cache afterwards, and how often the backend was hit. -/
structure EmbedResult where
  result : Except String Vec
  cache : Cache
  calls : Nat
deriving Repr

/-- `EmbeddingService.get_embedding`: look the RAW text up in the cache;
on a miss send the cleaned text to the backend and store the result under
the RAW text; a backend failure is re-raised and caches nothing. -/
def get_embedding (be : Str → Option Vec) (cache : Cache) (text : Str)
    (use_cache : Bool := true) : EmbedResult :=
  match (if use_cache then List.lookup text cache else none) with
  | some v => ⟨.ok v, cache, 0⟩
  | none =>
    match be (cleanText text) with
    | some v => ⟨.ok v, if use_cache then (text, v) :: cache else cache, 1⟩
    | none => ⟨.error "Embedding generation failed", cache, 1⟩

/-- The text embedded for a paper in `build_index`: the word Title, the
title, a blank line, the word Abstract, and the abstract. -/
def buildText (p : Paper) : Str :=
  str "Title: " ++ p.title ++ str "\n\nAbstract: " ++ p.abstract

/-- The loop body of `build_index`: per paper call `get_embedding`
(threading the cache); on success append to both lists, on failure append
to neither and continue. -/
def buildLoop (be : Str → Option Vec) (cache : Cache) :
    List Paper → List Vec × List Paper × Cache
  | [] => ([], [], cache)
  | p :: ps =>
    let r := get_embedding be cache (buildText p) true
    match r.result with
    | .ok v =>
      let rest := buildLoop be r.cache ps
      (v :: rest.1, p :: rest.2.1, rest.2.2)
    | .error _ => buildLoop be r.cache ps

/-- `EmbeddingService.build_index`: rejects an empty paper list, runs the
loop, rejects an empty embedding list, otherwise returns the aligned
vectors and metadata (and the updated cache). -/
def build_index (be : Str → Option Vec) (cache : Cache)
    (papers : List Paper) : Except String (List Vec × List Paper × Cache) :=
  if papers.isEmpty then .error "No papers provided for indexing"
  else
    let r := buildLoop be cache papers
    if r.1.isEmpty then .error "No valid embeddings generated"
    else .ok r

end EmbeddingService

/-- Squared Euclidean distance (the faiss `IndexFlatL2` metric). -/
def sqDist (q v : Vec) : ℚ := (List.zipWith (fun a b => (a - b) ^ 2) q v).sum

/-- Index/distance pairs of the query against every stored vector, in
storage order, indices starting at `base`. -/
def distList (q : Vec) : List Vec → Nat → List (Nat × ℚ)
  | [], _ => []
  | v :: vs, i => (i, sqDist q v) :: distList q vs (i + 1)

/-- Ascending-distance comparison used to order faiss results. -/
def distLE (a b : Nat × ℚ) : Prop := a.2 ≤ b.2

instance : DecidableRel distLE := fun a b => inferInstanceAs (Decidable (a.2 ≤ b.2))

instance : IsTotal (Nat × ℚ) distLE := ⟨fun a b => le_total a.2 b.2⟩

instance : IsTrans (Nat × ℚ) distLE := ⟨fun _ _ _ h1 h2 => le_trans h1 h2⟩

/-- `faiss_index.search(query_vector, k)` over stored `vectors`: the first
`k` index/distance pairs in ascending distance order. -/
def faissSearch (q : Vec) (vectors : List Vec) (k : Nat) : List (Nat × ℚ) :=
  (List.insertionSort distLE (distList q vectors 0)).take k

/-- The result loop shared by both search functions: keep a pair iff its
index is inside `metadata`, look the paper up positionally, and attach
`similarity = 1 / (1 + distance)`. -/
def scoreResults (metadata : List Paper) (pairs : List (Nat × ℚ)) :
    List (Paper × ℚ) :=
  pairs.filterMap (fun pr => (metadata[pr.1]?).map (fun p => (p, 1 / (1 + pr.2))))

namespace EmbeddingService

/-- `EmbeddingService.search`: fail if no index was built; embed the query
through `get_embedding`; ask faiss for `min(k, ntotal)` neighbours; score. -/
def search (be : Str → Option Vec) (cache : Cache)
    (index : Option (List Vec)) (metadata : List Paper) (query : Str)
    (k : Nat) : Except String (List (Paper × ℚ)) :=
  match index with
  | none => .error "Index not built. Call build_index first."
  | some vectors =>
    match (get_embedding be cache query true).result with
    | .error e => .error e
    | .ok qv => .ok (scoreResults metadata (faissSearch qv vectors (min k vectors.length)))

end EmbeddingService

/-- Errors a fetcher body can raise (transport, HTTP status, parsing,
attribute access on a missing XML element, the legacy explicit raise). -/
inductive FetchError where
  | requestException
  | httpError
  | parseError
  | attributeError
  | statusError (status : Nat)
deriving DecidableEq, Repr

/-- Outcome of `requests.get`: the transport raised, or a response arrived
with a status code and a body (`none` = the body fails to parse). -/
inductive HttpResult (α : Type) where
  | failure
  | success (status : Nat) (body : Option α)
deriving DecidableEq, Repr

/-- A response outcome on which the try-block body raises: transport
failure, `raise_for_status` firing (4xx/5xx), or an unparseable body. -/
def HttpResult.faulty : HttpResult α → Prop
  | .failure => True
  | .success status body => 400 ≤ status ∨ body.isNone = true

instance : DecidablePred (HttpResult.faulty (α := α)) := fun r =>
  match r with
  | .failure => inferInstanceAs (Decidable True)
  | .success status body => inferInstanceAs (Decidable (400 ≤ status ∨ body.isNone = true))

/-- One item of the Semantic Scholar JSON `data` array (the fields the
code reads; `title` access is unguarded in the code, so it is required). -/
structure SSItem where
  paperId : Option Str := none
  title : Str
  abstract : Option Str := none
  authors : List (Option Str) := []
  year : Option Str := none
  url : Option Str := none
  citationCount : Option Nat := none
  publicationTypes : Option (List Str) := none
deriving DecidableEq, Repr

/-- One Atom `entry` of an arXiv response (the elements the code reads;
`none` = the element is absent).  `linkHtml`: outer `none` = no
html link element, inner value = its href attribute. -/
structure ArxivEntry where
  title : Option Str := none
  summary : Option Str := none
  idUrl : Option Str := none
  published : Option Str := none
  updated : Option Str := none
  authors : List (Option Str) := []
  categories : List (Option Str) := []
  linkHtml : Option (Option Str) := none
deriving DecidableEq, Repr

/-- Python `except: return []` around a fetcher body. -/
def swallow (x : Except FetchError (List Paper)) : List Paper :=
  match x with
  | .ok ps => ps
  | .error _ => []

/-- The shared skeleton of the four guarded fetchers (`requests.get`,
`raise_for_status`, parse the body, run the per-item loop): a transport
failure, a 4xx/5xx status or an unparseable body raises inside the
try-block. -/
def wrapFetch {α : Type} (process : α → List Paper) (r : HttpResult α) :
    Except FetchError (List Paper) :=
  match r with
  | .failure => .error .requestException
  | .success status body =>
    if 400 ≤ status then .error .httpError
    else
      match body with
      | none => .error .parseError
      | some x => .ok (process x)

namespace App

/-- The per-item loop of `app.py` `fetch_semantic_scholar_papers`: keep
items whose abstract is present, non-empty and longer than 50 characters. -/
def semanticScholarItems (items : List SSItem) : List Paper :=
  items.filterMap (fun item =>
          match item.abstract with
          | some a =>
            if a ≠ [] ∧ 50 < a.length then
              some { id := item.paperId.getD []
                     title := item.title
                     abstract := a
                     authors := item.authors.map (fun n => n.getD (str "Unknown"))
                     published := item.year.getD []
                     url := item.url.getD []
                     source := str "semantic_scholar" }
            else none
          | none => none)

/-- `app.py` `fetch_semantic_scholar_papers`: the guarded skeleton around
the per-item loop; the `except` clause logs and returns `[]`. -/
def fetch_semantic_scholar_papers (r : HttpResult (List SSItem)) : List Paper :=
  swallow (wrapFetch semanticScholarItems r)

/-- The per-entry loop of `app.py` `fetch_arxiv_papers`: keep entries with
both a title and a summary. -/
def arxivEntries (entries : List ArxivEntry) : List Paper :=
  entries.filterMap (fun e =>
          match e.title, e.summary with
          | some ti, some su =>
            let arxiv_id := match e.idUrl with
              | some u => lastSegment '/' u
              | none => []
            some { id := arxiv_id
                   title := replaceChar '\n' ' ' (pyStrip ti)
                   abstract := replaceChar '\n' ' ' (pyStrip su)
                   authors := e.authors.filterMap id
                   published := match e.published with
                     | some pu => pu.take 10
                     | none => []
                   url := if arxiv_id ≠ [] then str "https://arxiv.org/abs/" ++ arxiv_id else []
                   source := str "arxiv" }
          | _, _ => none)

/-- `app.py` `fetch_arxiv_papers`: the guarded skeleton around the
per-entry loop; the `except` clause logs and returns `[]`. -/
def fetch_arxiv_papers (r : HttpResult (List ArxivEntry)) : List Paper :=
  swallow (wrapFetch arxivEntries r)

/-- The inline dedup loop of `fetch_all_papers` (seen-set starts empty). -/
def dedupe (papers : List Paper) : List Paper := dedupFrom titleKeyApp [] papers

/-- The Python error an un-guarded `//` can raise. -/
inductive PyError where
  | zeroDivisionError
deriving DecidableEq, Repr

/-- `app.py` `fetch_all_papers`, parameterized by the two per-source
fetchers it calls: divide `max_results` by the number of sources (a
`ZeroDivisionError` for an empty list), fetch each requested source with
that per-source limit, concatenate, dedup, truncate to `max_results`. -/
def fetch_all_papers (fSS fAX : Str → Nat → List Paper) (query : Str)
    (sources : List Str) (max_results : Nat) : Except PyError (List Paper) :=
  if sources.length = 0 then .error .zeroDivisionError
  else
    let results_per_source := max_results / sources.length
    let all_papers :=
      (if str "semantic_scholar" ∈ sources then fSS query results_per_source else []) ++
      (if str "arxiv" ∈ sources then fAX query results_per_source else [])
    .ok ((dedupe all_papers).take max_results)

/-- An HTTPException: status code and detail. -/
structure HttpError where
  status : Nat
  detail : String
deriving DecidableEq, Repr

/-- The text cleaning of `app.py` `get_embedding`: newlines replaced by
spaces, stripped, truncated to 512 characters for the local model. -/
def cleanText (t : Str) : Str := (pyStrip (replaceChar '\n' ' ' t)).take 512

/-- The text embedded per paper in `build_faiss_index`: the title, a
newline, and the abstract. -/
def buildText (p : Paper) : Str := p.title ++ [Char.ofNat 10] ++ p.abstract

/-- The loop body of `build_faiss_index`: per paper embed the combined
text; on success append to both lists, on failure skip the paper. -/
def buildEntries (be : Str → Option Vec) : List Paper → List Vec × List Paper
  | [] => ([], [])
  | p :: ps =>
    let rest := buildEntries be ps
    match be (cleanText (buildText p)) with
    | some v => (v :: rest.1, p :: rest.2)
    | none => rest

/-- `app.py` `build_faiss_index`: 404 for an empty paper list, 500 when no
embedding succeeded, otherwise the aligned vectors and metadata. -/
def build_faiss_index (be : Str → Option Vec) (papers : List Paper) :
    Except HttpError (List Vec × List Paper) :=
  if papers.isEmpty then .error ⟨404, "No papers to index"⟩
  else
    let r := buildEntries be papers
    if r.1.isEmpty then .error ⟨500, "Failed to generate embeddings"⟩
    else .ok r

/-- `app.py` `search_similar_papers`: 400 if no index exists, embed the
query (500 on failure), ask faiss for `min(top_k, ntotal)` neighbours,
attach `1 / (1 + distance)` as the relevance score. -/
def search_similar_papers (be : Str → Option Vec) (index : Option (List Vec))
    (metadata : List Paper) (query : Str) (top_k : Nat) :
    Except HttpError (List (Paper × ℚ)) :=
  match index with
  | none => .error ⟨400, "Index not built. Please fetch papers first."⟩
  | some vectors =>
    match be (cleanText query) with
    | none => .error ⟨500, "Embedding failed"⟩
    | some qv => .ok (scoreResults metadata (faissSearch qv vectors (min top_k vectors.length)))

/-- `app.py` `recommend_papers` up to the ranked results, parameterized by
the index-build step (the explanation attachment and response wrapping
that follow are outside the retrieval core): validate the query text,
fetch + dedup (a ZeroDivisionError is caught by the generic handler as a
500), 404 on an empty paper list, build, search. -/
def recommend_core (fSS fAX : Str → Nat → List Paper)
    (build : List Paper → Except HttpError (List Vec × List Paper))
    (be : Str → Option Vec) (text : Str) (sources : List Str)
    (max_results : Nat) : Except HttpError (List (Paper × ℚ)) :=
  if pyStrip text = [] then .error ⟨400, "Query text cannot be empty"⟩
  else
    match fetch_all_papers fSS fAX text sources max_results with
    | .error _ => .error ⟨500, "Internal server error: integer division or modulo by zero"⟩
    | .ok papers =>
      if papers.isEmpty then .error ⟨404, "No papers found for the given query"⟩
      else
        match build papers with
        | .error e => .error e
        | .ok (vecs, meta) => search_similar_papers be (some vecs) meta text max_results

/-- `app.py` `recommend_papers` with the concrete index-build step. -/
def recommend_papers (fSS fAX : Str → Nat → List Paper)
    (be : Str → Option Vec) (text : Str) (sources : List Str)
    (max_results : Nat) : Except HttpError (List (Paper × ℚ)) :=
  recommend_core fSS fAX (build_faiss_index be) be text sources max_results

end App

namespace PaperFetcher

/-- The per-item loop of `PaperFetcher.fetch_semantic_scholar`: drop items
with a missing, empty or shorter-than-100-character abstract, keep authors
with a truthy name. -/
def semanticScholarItems (items : List SSItem) : List Paper :=
  items.filterMap (fun item =>
          let abstract := item.abstract.getD []
          if abstract = [] ∨ abstract.length < 100 then none
          else
            some { id := item.paperId.getD []
                   title := pyStrip item.title
                   abstract := pyStrip abstract
                   authors := item.authors.filterMap (fun n =>
                     match n with
                     | some name => if name ≠ [] then some name else none
                     | none => none)
                   published := item.year.getD []
                   url := item.url.getD []
                   source := str "semantic_scholar"
                   citation_count := some (item.citationCount.getD 0)
                   publication_types := item.publicationTypes.getD [] })

/-- `PaperFetcher.fetch_semantic_scholar`: the guarded skeleton around the
per-item loop; both `except` clauses log and return `[]`. -/
def fetch_semantic_scholar (r : HttpResult (List SSItem)) : List Paper :=
  swallow (wrapFetch semanticScholarItems r)

/-- The per-entry loop of `PaperFetcher.fetch_arxiv`: skip entries missing
title/summary/id, skip abstracts shorter than 100 characters. -/
def arxivEntries (entries : List ArxivEntry) : List Paper :=
  entries.filterMap (fun e =>
          match e.title, e.summary, e.idUrl with
          | some ti, some su, some iu =>
            let arxiv_id := lastSegment '/' iu
            let abstract := replaceChar '\n' ' ' (pyStrip su)
            if abstract.length < 100 then none
            else
              some { id := arxiv_id
                     title := replaceChar '\n' ' ' (pyStrip ti)
                     abstract := abstract
                     authors := e.authors.filterMap (fun n => n.map pyStrip)
                     published := match e.published with
                       | some pu => pu.take 10
                       | none => []
                     updated := some (match e.updated with
                       | some up => up.take 10
                       | none => [])
                     url := str "https://arxiv.org/abs/" ++ arxiv_id
                     pdf_url := some (str "https://arxiv.org/pdf/" ++ arxiv_id ++ str ".pdf")
                     source := str "arxiv"
                     categories := e.categories.filterMap (fun t =>
                       match t with
                       | some term => if term ≠ [] then some term else none
                       | none => none) }
          | _, _, _ => none)

/-- `PaperFetcher.fetch_arxiv`: the guarded skeleton around the per-entry
loop; the `except` clause logs and returns `[]`. -/
def fetch_arxiv (r : HttpResult (List ArxivEntry)) : List Paper :=
  swallow (wrapFetch arxivEntries r)

/-- `PaperFetcher._deduplicate_papers` (seen-set starts empty). -/
def deduplicate_papers (papers : List Paper) : List Paper :=
  dedupFrom titleKeyDS [] papers

end PaperFetcher

namespace Legacy

/-- One entry processed by `fetch_arxiv.py`: unguarded `.text` accesses on
title, summary, published, the html link and each author name raise
`AttributeError` when the element is missing; only the id is guarded. -/
def processEntry (e : ArxivEntry) : Except FetchError Paper :=
  match e.title, e.summary, e.published, e.linkHtml with
  | some ti, some su, some pu, some _href =>
    match e.authors.mapM id with
    | some authors =>
      .ok { id := e.idUrl.getD []
            title := replaceChar '\n' ' ' (pyStrip ti)
            abstract := replaceChar '\n' ' ' (pyStrip su)
            authors := authors
            published := pu
            url := []
            source := [] }
    | none => .error .attributeError
  | _, _, _, _ => .error .attributeError

/-- `fetch_arxiv.py` `fetch_arxiv_papers`: NO try/except anywhere — a
transport failure propagates, a non-200 status raises
an Exception carrying the status, a parse failure
propagates, and entry processing can raise `AttributeError`. -/
def fetch_arxiv_papers (r : HttpResult (List ArxivEntry)) :
    Except FetchError (List Paper) :=
  match r with
  | .failure => .error .requestException
  | .success status body =>
    if status ≠ 200 then .error (.statusError status)
    else
      match body with
      | none => .error .parseError
      | some entries => entries.mapM processEntry

end Legacy

/-- The `EmbeddingService` cache invariant: every cached vector is what
the backend returns for the cleaned text.  It holds for the empty cache
and is preserved by every `get_embedding` call against a fixed backend. -/
def CacheFaithful (be : Str → Option Vec) (c : Cache) : Prop :=
  ∀ t v, List.lookup t c = some v → be (EmbeddingService.cleanText t) = some v

/-- A minimal paper record; concrete instances for the theorems below. -/
def mkPaper (t a : Str) : Paper :=
  { id := [], title := t, abstract := a, authors := [], published := [],
    url := [], source := [] }

/-- Concrete papers used at concrete inputs below. -/
def wPaperA : Paper := mkPaper (str "A") (str "a")

def wPaperB : Paper := mkPaper (str "B") (str "b")

def wPaperC : Paper := mkPaper (str "C") (str "c")

/-- A backend failing exactly on the build text of `wPaperB`. -/
def wFailB : Str → Option Vec := fun s =>
  if s = EmbeddingService.cleanText (EmbeddingService.buildText wPaperB) then none
  else some [1]

/-- A backend returning the empty vector for every text. -/
def emptyVecBE : Str → Option Vec := fun _ => some []

/-- A backend that always fails. -/
def failBE : Str → Option Vec := fun _ => none

/-! Theorems: helper lemmas first, then one theorem per claim C1-C10. -/

theorem dedupFrom_eq_dedupFirst (key : Str → Str) (papers : List Paper) :
    ∀ seen : List Str,
      dedupFrom key seen papers =
        dedupFirst key (papers.filter (fun p => decide (key p.title ∉ seen))) := by
  induction papers with
  | nil => intro seen; simp [dedupFrom, dedupFirst]
  | cons p ps ih =>
    intro seen
    by_cases h : key p.title ∈ seen
    · simp only [dedupFrom, if_pos h, List.filter_cons]
      rw [ih seen]
      simp [h]
    · simp only [dedupFrom, if_neg h, List.filter_cons]
      have hd : decide (key p.title ∉ seen) = true := by simp [h]
      rw [hd]
      simp only [if_pos]
      rw [dedupFirst, ih (key p.title :: seen), List.filter_filter]
      congr 1
      apply congrArg
      apply List.filter_congr
      intro x _
      by_cases h1 : key x.title = key p.title <;> by_cases h2 : key x.title ∈ seen <;>
        simp [List.mem_cons, h1, h2]

theorem dedupFrom_pairwise (key : Str → Str) (papers : List Paper) :
    ∀ seen : List Str,
      List.Pairwise (fun a b : Paper => key a.title ≠ key b.title)
        (dedupFrom key seen papers) ∧
      ∀ p ∈ dedupFrom key seen papers, key p.title ∉ seen := by
  induction papers with
  | nil => intro seen; simp [dedupFrom]
  | cons p ps ih =>
    intro seen
    by_cases h : key p.title ∈ seen
    · simpa [dedupFrom, if_pos h] using ih seen
    · obtain ⟨ihp, ihs⟩ := ih (key p.title :: seen)
      refine ⟨?_, ?_⟩
      · simp only [dedupFrom, if_neg h]
        refine List.Pairwise.cons ?_ ihp
        intro q hq
        have := ihs q hq
        simp only [List.mem_cons, not_or] at this
        exact fun he => this.1 he.symm
      · intro q hq
        simp only [dedupFrom, if_neg h, List.mem_cons] at hq
        rcases hq with rfl | hq
        · exact h
        · have := ihs q hq
          simp only [List.mem_cons, not_or] at this
          exact this.2

theorem dedupFrom_fixed (key : Str → Str) (papers : List Paper) :
    ∀ seen : List Str,
      List.Pairwise (fun a b : Paper => key a.title ≠ key b.title) papers →
      (∀ p ∈ papers, key p.title ∉ seen) →
      dedupFrom key seen papers = papers := by
  induction papers with
  | nil => intro seen _ _; rfl
  | cons p ps ih =>
    intro seen hp hs
    have h : key p.title ∉ seen := hs p (List.mem_cons_self p ps)
    simp only [dedupFrom, if_neg h]
    congr 1
    refine ih _ hp.of_cons ?_
    intro q hq
    simp only [List.mem_cons, not_or]
    exact ⟨fun he => (List.rel_of_pairwise_cons hp hq) he.symm,
      hs q (List.mem_cons_of_mem p hq)⟩

/-- C3 counterexample: the key the spec describes (ALL whitespace
stripped) identifies the titles "a[tab]b" and "ab", yet neither dedup
implementation drops the later paper — the code removes only space
characters.  Conversely the spec key separates "a-b" from "ab", yet
`_deduplicate_papers` (which also removes hyphens) drops the later one. -/
theorem C3_counterexample :
    specTitleKey (str "a\tb") = specTitleKey (str "ab") ∧
    App.dedupe [mkPaper (str "a\tb") [], mkPaper (str "ab") []] =
      [mkPaper (str "a\tb") [], mkPaper (str "ab") []] ∧
    PaperFetcher.deduplicate_papers [mkPaper (str "a\tb") [], mkPaper (str "ab") []] =
      [mkPaper (str "a\tb") [], mkPaper (str "ab") []] ∧
    specTitleKey (str "a-b") ≠ specTitleKey (str "ab") ∧
    PaperFetcher.deduplicate_papers [mkPaper (str "a-b") [], mkPaper (str "ab") []] =
      [mkPaper (str "a-b") []] := by
  refine ⟨by decide, by decide, by decide, by decide, by decide⟩

/-- C3 (amended): both dedup implementations keep exactly the first
occurrence of each key and drop every later paper with the same key,
where the key is the title lower-cased with space characters removed
(for `_deduplicate_papers` also hyphens removed), truncated to the first
50 characters; whitespace other than the space character is kept. -/
theorem C3_dedup_first_occurrence :
    (∀ papers : List Paper, App.dedupe papers = dedupFirst titleKeyApp papers) ∧
    (∀ papers : List Paper,
      PaperFetcher.deduplicate_papers papers = dedupFirst titleKeyDS papers) := by
  constructor
  · intro papers
    rw [App.dedupe, dedupFrom_eq_dedupFirst]
    congr 1
    simp
  · intro papers
    rw [PaperFetcher.deduplicate_papers, dedupFrom_eq_dedupFirst]
    congr 1
    simp

/-- C3 witness: the amended characterization at concrete lists. -/
theorem C3_dedup_first_occurrence_witness :
    App.dedupe [mkPaper (str "Deep Learning") [], mkPaper (str "deep  learning") []] =
      dedupFirst titleKeyApp
        [mkPaper (str "Deep Learning") [], mkPaper (str "deep  learning") []] ∧
    PaperFetcher.deduplicate_papers [mkPaper (str "a-b") [], mkPaper (str "ab") []] =
      dedupFirst titleKeyDS [mkPaper (str "a-b") [], mkPaper (str "ab") []] :=
  ⟨C3_dedup_first_occurrence.1 _, C3_dedup_first_occurrence.2 _⟩

/-- C4: both dedup implementations are idempotent — rerunning them on
their own output returns it unchanged. -/
theorem C4_dedup_idempotent (papers : List Paper) :
    App.dedupe (App.dedupe papers) = App.dedupe papers ∧
    PaperFetcher.deduplicate_papers (PaperFetcher.deduplicate_papers papers) =
      PaperFetcher.deduplicate_papers papers := by
  constructor
  · exact dedupFrom_fixed titleKeyApp _ []
      (dedupFrom_pairwise titleKeyApp papers []).1 (by simp)
  · exact dedupFrom_fixed titleKeyDS _ []
      (dedupFrom_pairwise titleKeyDS papers []).1 (by simp)

/-- C4 witness: idempotence at a concrete list with a duplicate key. -/
theorem C4_dedup_idempotent_witness :
    App.dedupe (App.dedupe [mkPaper (str "A B") [], mkPaper (str "ab") []]) =
      App.dedupe [mkPaper (str "A B") [], mkPaper (str "ab") []] ∧
    PaperFetcher.deduplicate_papers (PaperFetcher.deduplicate_papers
        [mkPaper (str "A B") [], mkPaper (str "ab") []]) =
      PaperFetcher.deduplicate_papers [mkPaper (str "A B") [], mkPaper (str "ab") []] :=
  C4_dedup_idempotent [mkPaper (str "A B") [], mkPaper (str "ab") []]

theorem get_embedding_result_of_faithful (be : Str → Option Vec) (c : Cache)
    (t : Str) (hc : CacheFaithful be c) :
    (EmbeddingService.get_embedding be c t true).result =
      match be (EmbeddingService.cleanText t) with
      | some v => Except.ok v
      | none => Except.error "Embedding generation failed" := by
  cases hlu : List.lookup t c with
  | some v => simp [EmbeddingService.get_embedding, hlu, hc t v hlu]
  | none =>
    cases hbe : be (EmbeddingService.cleanText t) <;>
      simp [EmbeddingService.get_embedding, hlu, hbe]

theorem get_embedding_cache_of_faithful (be : Str → Option Vec) (c : Cache)
    (t : Str) (hc : CacheFaithful be c) :
    CacheFaithful be (EmbeddingService.get_embedding be c t true).cache := by
  cases hlu : List.lookup t c with
  | some v => simpa [EmbeddingService.get_embedding, hlu] using hc
  | none =>
    cases hbe : be (EmbeddingService.cleanText t) with
    | none => simpa [EmbeddingService.get_embedding, hlu, hbe] using hc
    | some v =>
      have hcache : (EmbeddingService.get_embedding be c t true).cache = (t, v) :: c := by
        simp [EmbeddingService.get_embedding, hlu, hbe]
      rw [hcache]
      intro u w hw
      rw [List.lookup_cons] at hw
      cases hub : u == t with
      | true =>
        rw [hub] at hw
        cases hw
        rw [eq_of_beq hub]
        exact hbe
      | false =>
        rw [hub] at hw
        exact hc u w hw

theorem buildLoop_spec (be : Str → Option Vec) (papers : List Paper) :
    ∀ c : Cache, CacheFaithful be c →
      (EmbeddingService.buildLoop be c papers).1.length =
        (EmbeddingService.buildLoop be c papers).2.1.length ∧
      ∀ i : Nat,
        (EmbeddingService.buildLoop be c papers).1[i]? =
          ((EmbeddingService.buildLoop be c papers).2.1[i]?).bind
            (fun p => be (EmbeddingService.cleanText (EmbeddingService.buildText p))) := by
  induction papers with
  | nil =>
    intro c hc
    exact ⟨rfl, fun i => by simp [EmbeddingService.buildLoop]⟩
  | cons p ps ih =>
    intro c hc
    have hres := get_embedding_result_of_faithful be c (EmbeddingService.buildText p) hc
    have hcf := get_embedding_cache_of_faithful be c (EmbeddingService.buildText p) hc
    obtain ⟨ihl, ihi⟩ := ih _ hcf
    cases hbe : be (EmbeddingService.cleanText (EmbeddingService.buildText p)) with
    | some v =>
      have hr : (EmbeddingService.get_embedding be c
          (EmbeddingService.buildText p) true).result = .ok v := by
        rw [hres, hbe]
      simp only [EmbeddingService.buildLoop, hr]
      refine ⟨by simp [ihl], ?_⟩
      intro i
      cases i with
      | zero => simp [hbe]
      | succ n => simpa using ihi n
    | none =>
      have hr : (EmbeddingService.get_embedding be c
          (EmbeddingService.buildText p) true).result =
          .error "Embedding generation failed" := by
        rw [hres, hbe]
      simp only [EmbeddingService.buildLoop, hr]
      exact ⟨ihl, ihi⟩

theorem buildEntries_spec (be : Str → Option Vec) (papers : List Paper) :
    (App.buildEntries be papers).1.length = (App.buildEntries be papers).2.length ∧
    ∀ i : Nat, (App.buildEntries be papers).1[i]? =
      ((App.buildEntries be papers).2[i]?).bind
        (fun p => be (App.cleanText (App.buildText p))) := by
  induction papers with
  | nil => exact ⟨rfl, fun i => by simp [App.buildEntries]⟩
  | cons p ps ih =>
    obtain ⟨ihl, ihi⟩ := ih
    cases hbe : be (App.cleanText (App.buildText p)) with
    | some v =>
      simp only [App.buildEntries, hbe]
      refine ⟨by simp [ihl], ?_⟩
      intro i
      cases i with
      | zero => simp [hbe]
      | succ n => simpa using ihi n
    | none =>
      simpa only [App.buildEntries, hbe] using ⟨ihl, ihi⟩

/-- C1: whenever `EmbeddingService.build_index` (given a cache consistent
with the backend, e.g. the empty one) or `app.py` `build_faiss_index`
returns a built index, the vector and metadata sequences have equal
length, and position `i` of the vectors is exactly the backend embedding
of the text built from position `i` of the metadata — papers whose
embedding failed are absent from both sequences in lock-step. -/
theorem C1_positional_alignment :
    (∀ (be : Str → Option Vec) (c : Cache) (papers : List Paper)
        (vecs : List Vec) (meta : List Paper) (c2 : Cache),
        CacheFaithful be c →
        EmbeddingService.build_index be c papers = .ok (vecs, meta, c2) →
        vecs.length = meta.length ∧
        ∀ i : Nat, vecs[i]? = (meta[i]?).bind
          (fun p => be (EmbeddingService.cleanText (EmbeddingService.buildText p)))) ∧
    (∀ (be : Str → Option Vec) (papers : List Paper)
        (vecs : List Vec) (meta : List Paper),
        App.build_faiss_index be papers = .ok (vecs, meta) →
        vecs.length = meta.length ∧
        ∀ i : Nat, vecs[i]? = (meta[i]?).bind
          (fun p => be (App.cleanText (App.buildText p)))) := by
  constructor
  · intro be c papers vecs meta c2 hc h
    have heq : EmbeddingService.buildLoop be c papers = (vecs, meta, c2) := by
      simp only [EmbeddingService.build_index] at h
      split at h
      · simp at h
      · split at h
        · simp at h
        · exact Except.ok.inj h
    obtain ⟨h1, h2⟩ := buildLoop_spec be papers c hc
    rw [heq] at h1 h2
    exact ⟨h1, h2⟩
  · intro be papers vecs meta h
    have heq : App.buildEntries be papers = (vecs, meta) := by
      simp only [App.build_faiss_index] at h
      split at h
      · simp at h
      · split at h
        · simp at h
        · exact Except.ok.inj h
    obtain ⟨h1, h2⟩ := buildEntries_spec be papers
    rw [heq] at h1 h2
    exact ⟨h1, h2⟩

/-- C1 witness: three papers, the backend fails on the middle one; the
build succeeds with two vectors aligned to the two surviving papers. -/
theorem C1_positional_alignment_witness :
    CacheFaithful wFailB [] ∧
    ([[1], [1]] : List Vec).length = ([wPaperA, wPaperC] : List Paper).length ∧
    ([[1], [1]] : List Vec)[1]? = (([wPaperA, wPaperC] : List Paper)[1]?).bind
      (fun p => wFailB (EmbeddingService.cleanText (EmbeddingService.buildText p))) := by
  have hcf : CacheFaithful wFailB [] := by
    intro t v hl
    simp [List.lookup] at hl
  have h := C1_positional_alignment.1 wFailB [] [wPaperA, wPaperB, wPaperC]
    [[1], [1]] [wPaperA, wPaperC]
    [(EmbeddingService.buildText wPaperC, [1]), (EmbeddingService.buildText wPaperA, [1])]
    hcf rfl
  exact ⟨hcf, h.1, h.2 1⟩

/-- C5 counterexample: a backend failure caches nothing, so two calls
with the same text hit the backend twice — the claimed at-most-one
backend invocation in total fails when the first call raises. -/
theorem C5_counterexample :
    (EmbeddingService.get_embedding failBE [] (str "a") true).calls +
      (EmbeddingService.get_embedding failBE
        (EmbeddingService.get_embedding failBE [] (str "a") true).cache
        (str "a") true).calls = 2 := rfl

/-- C5 (amended): provided the first call returns a vector, two calls
with the same text (caching enabled) invoke the backend at most once in
total, and the second call returns the same vector. -/
theorem C5_cache_memoization (be : Str → Option Vec) (c : Cache) (t : Str)
    (v : Vec)
    (h : (EmbeddingService.get_embedding be c t true).result = .ok v) :
    (EmbeddingService.get_embedding be c t true).calls +
      (EmbeddingService.get_embedding be
        (EmbeddingService.get_embedding be c t true).cache t true).calls ≤ 1 ∧
    (EmbeddingService.get_embedding be
      (EmbeddingService.get_embedding be c t true).cache t true).result = .ok v := by
  cases hlu : List.lookup t c with
  | some w =>
    have hw : w = v := by
      simpa [EmbeddingService.get_embedding, hlu] using h
    subst hw
    simp [EmbeddingService.get_embedding, hlu]
  | none =>
    cases hbe : be (EmbeddingService.cleanText t) with
    | none => simp [EmbeddingService.get_embedding, hlu, hbe] at h
    | some w =>
      have hw : w = v := by
        simpa [EmbeddingService.get_embedding, hlu, hbe] using h
      subst hw
      simp [EmbeddingService.get_embedding, hlu, hbe, List.lookup_cons]

/-- C5 witness: a fresh successful call followed by a repeat call. -/
theorem C5_cache_memoization_witness :
    (EmbeddingService.get_embedding emptyVecBE [] (str "t") true).result = .ok [] ∧
    (EmbeddingService.get_embedding emptyVecBE [] (str "t") true).calls +
      (EmbeddingService.get_embedding emptyVecBE
        (EmbeddingService.get_embedding emptyVecBE [] (str "t") true).cache
        (str "t") true).calls ≤ 1 ∧
    (EmbeddingService.get_embedding emptyVecBE
      (EmbeddingService.get_embedding emptyVecBE [] (str "t") true).cache
      (str "t") true).result = .ok [] :=
  ⟨rfl, C5_cache_memoization emptyVecBE [] (str "t") [] rfl⟩

/-- C9 counterexample: the cache is keyed by the RAW text, not its
normalization — "a[newline]b" and "a b" normalize identically yet get two
backend invocations and two separate cache entries, and the stored key is
not the normalized form. -/
theorem C9_counterexample :
    EmbeddingService.cleanText (str "a\nb") = EmbeddingService.cleanText (str "a b") ∧
    (EmbeddingService.get_embedding emptyVecBE [] (str "a\nb") true).calls +
      (EmbeddingService.get_embedding emptyVecBE
        (EmbeddingService.get_embedding emptyVecBE [] (str "a\nb") true).cache
        (str "a b") true).calls = 2 ∧
    (EmbeddingService.get_embedding emptyVecBE
      (EmbeddingService.get_embedding emptyVecBE [] (str "a\nb") true).cache
      (str "a b") true).cache.map Prod.fst = [str "a b", str "a\nb"] ∧
    str "a\nb" ≠ EmbeddingService.cleanText (str "a\nb") := by
  exact ⟨by decide, rfl, by decide, by decide⟩

/-- C9 (amended): every key stored by `get_embedding` is the raw
requested text (new keys only ever equal the argument text), lookup is
performed with the raw text (a raw-text hit returns the cached vector
with no backend call), and on a miss the backend receives the normalized
text while the store happens under the raw text. -/
theorem C9_cache_keys_raw :
    (∀ (be : Str → Option Vec) (c : Cache) (t : Str) (u : Bool) (k : Str),
        k ∈ (EmbeddingService.get_embedding be c t u).cache.map Prod.fst →
        k ∈ c.map Prod.fst ∨ k = t) ∧
    (∀ (be : Str → Option Vec) (c : Cache) (t : Str) (v : Vec),
        List.lookup t c = some v →
        EmbeddingService.get_embedding be c t true = ⟨.ok v, c, 0⟩) ∧
    (∀ (be : Str → Option Vec) (c : Cache) (t : Str) (v : Vec),
        List.lookup t c = none → be (EmbeddingService.cleanText t) = some v →
        EmbeddingService.get_embedding be c t true = ⟨.ok v, (t, v) :: c, 1⟩) := by
  refine ⟨?_, ?_, ?_⟩
  · intro be c t u k hk
    cases u with
    | false =>
      left
      cases hbe : be (EmbeddingService.cleanText t) <;>
        simpa [EmbeddingService.get_embedding, hbe] using hk
    | true =>
      cases hlu : List.lookup t c with
      | some v => left; simpa [EmbeddingService.get_embedding, hlu] using hk
      | none =>
        cases hbe : be (EmbeddingService.cleanText t) with
        | none => left; simpa [EmbeddingService.get_embedding, hlu, hbe] using hk
        | some v =>
          have hm : k ∈ ((t, v) :: c).map Prod.fst := by
            simpa [EmbeddingService.get_embedding, hlu, hbe] using hk
          simpa [List.mem_cons, or_comm] using hm
  · intro be c t v hl
    simp [EmbeddingService.get_embedding, hl]
  · intro be c t v hl hbe
    simp [EmbeddingService.get_embedding, hl, hbe]

/-- C9 witness: a fresh miss stores under the raw key; an unrelated old
key survives a call. -/
theorem C9_cache_keys_raw_witness :
    (str "k" ∈ ([(str "k", ([] : Vec))] : Cache).map Prod.fst ∨ str "k" = str "t") ∧
    EmbeddingService.get_embedding emptyVecBE [] (str "t") true =
      ⟨.ok [], [(str "t", [])], 1⟩ :=
  ⟨C9_cache_keys_raw.1 emptyVecBE [(str "k", [])] (str "t") true (str "k") (by decide),
   C9_cache_keys_raw.2.2 emptyVecBE [] (str "t") [] rfl rfl⟩

theorem sqDist_nonneg : ∀ q v : Vec, 0 ≤ sqDist q v
  | [], _ => by simp [sqDist]
  | _ :: _, [] => by simp [sqDist]
  | a :: q, b :: v => by
    have ih := sqDist_nonneg q v
    simp only [sqDist, List.zipWith_cons_cons, List.sum_cons] at ih ⊢
    have h2 : 0 ≤ (a - b) ^ 2 := sq_nonneg _
    linarith

theorem distList_length (q : Vec) :
    ∀ (vs : List Vec) (base : Nat), (distList q vs base).length = vs.length
  | [], _ => rfl
  | _ :: vs, base => by
    simp [distList, distList_length q vs (base + 1)]

theorem mem_distList (q : Vec) :
    ∀ (vs : List Vec) (base : Nat) (pr : Nat × ℚ), pr ∈ distList q vs base →
      ∃ j v, pr.1 = base + j ∧ vs[j]? = some v ∧ pr.2 = sqDist q v
  | [], _, _, h => by simp [distList] at h
  | v :: vs, base, pr, h => by
    simp only [distList, List.mem_cons] at h
    rcases h with rfl | h
    · exact ⟨0, v, by simp⟩
    · obtain ⟨j, w, hj, hv, hd⟩ := mem_distList q vs (base + 1) pr h
      exact ⟨j + 1, w, by omega, by simpa using hv, hd⟩

theorem mem_faissSearch (q : Vec) (vectors : List Vec) (k : Nat)
    (pr : Nat × ℚ) (h : pr ∈ faissSearch q vectors k) :
    ∃ v, vectors[pr.1]? = some v ∧ pr.2 = sqDist q v := by
  have h1 : pr ∈ List.insertionSort distLE (distList q vectors 0) :=
    (List.take_sublist k _).mem h
  have h2 : pr ∈ distList q vectors 0 :=
    (List.perm_insertionSort distLE _).mem_iff.mp h1
  obtain ⟨j, v, hj, hv, hd⟩ := mem_distList q vectors 0 pr h2
  have : pr.1 = j := by omega
  exact ⟨v, by rw [this]; exact hv, hd⟩

theorem faissSearch_sorted (q : Vec) (vectors : List Vec) (k : Nat) :
    List.Pairwise distLE (faissSearch q vectors k) :=
  List.Pairwise.sublist (List.take_sublist k _)
    (List.sorted_insertionSort distLE (distList q vectors 0))

theorem faissSearch_length (q : Vec) (vectors : List Vec) (k : Nat) :
    (faissSearch q vectors k).length = min k vectors.length := by
  simp [faissSearch, List.length_take,
    (List.perm_insertionSort distLE (distList q vectors 0)).length_eq,
    distList_length]

theorem scoreResults_length_le (metadata : List Paper) (pairs : List (Nat × ℚ)) :
    (scoreResults metadata pairs).length ≤ pairs.length :=
  List.length_filterMap_le _ _

theorem scoreResults_sorted (q : Vec) (vectors : List Vec)
    (metadata : List Paper) (k : Nat) :
    List.Pairwise (fun a b : Paper × ℚ => b.2 ≤ a.2)
      (scoreResults metadata (faissSearch q vectors k)) := by
  apply List.pairwise_filterMap.mpr
  have hnn : ∀ pr ∈ faissSearch q vectors k, 0 ≤ pr.2 := by
    intro pr hpr
    obtain ⟨v, _, hd⟩ := mem_faissSearch q vectors k pr hpr
    rw [hd]
    exact sqDist_nonneg q v
  refine (faissSearch_sorted q vectors k).imp_of_mem ?_
  intro a b ha _ hab x hx y hy
  obtain ⟨pa, _, hxa⟩ := Option.map_eq_some'.mp hx
  obtain ⟨pb, _, hyb⟩ := Option.map_eq_some'.mp hy
  rw [← hxa, ← hyb]
  have h0 : 0 ≤ a.2 := hnn a ha
  have hle : a.2 ≤ b.2 := hab
  exact one_div_le_one_div_of_le (by linarith) (by linarith)

theorem mem_scoreResults (q : Vec) (vectors : List Vec)
    (metadata : List Paper) (k : Nat) (p : Paper) (s : ℚ)
    (h : (p, s) ∈ scoreResults metadata (faissSearch q vectors k)) :
    ∃ (i : Nat) (v : Vec), vectors[i]? = some v ∧ metadata[i]? = some p ∧
      s = 1 / (1 + sqDist q v) ∧ 0 < s ∧ s ≤ 1 := by
  obtain ⟨pr, hpr, hmap⟩ := List.mem_filterMap.mp h
  obtain ⟨p2, hp2, hps⟩ := Option.map_eq_some'.mp hmap
  obtain ⟨hp, hs⟩ := Prod.mk.injEq .. ▸ hps
  obtain ⟨v, hv, hd⟩ := mem_faissSearch q vectors k pr hpr
  have hnn : 0 ≤ sqDist q v := sqDist_nonneg q v
  refine ⟨pr.1, v, hv, hp ▸ hp2, ?_, ?_, ?_⟩
  · rw [← hs, hd]
  · rw [← hs, hd]
    positivity
  · rw [← hs, hd]
    rw [div_le_one (by linarith)]
    linarith

/-- C2: both search implementations, on success over an index of `n`
stored vectors, return at most `min k n` results (k is clamped to the
number of stored vectors before querying faiss), sorted by non-increasing
similarity score. -/
theorem C2_search_bounded_sorted :
    (∀ (be : Str → Option Vec) (c : Cache) (vectors : List Vec)
        (metadata : List Paper) (query : Str) (k : Nat)
        (results : List (Paper × ℚ)),
        EmbeddingService.search be c (some vectors) metadata query k = .ok results →
        results.length ≤ min k vectors.length ∧
        List.Pairwise (fun a b : Paper × ℚ => b.2 ≤ a.2) results) ∧
    (∀ (be : Str → Option Vec) (vectors : List Vec) (metadata : List Paper)
        (query : Str) (k : Nat) (results : List (Paper × ℚ)),
        App.search_similar_papers be (some vectors) metadata query k = .ok results →
        results.length ≤ min k vectors.length ∧
        List.Pairwise (fun a b : Paper × ℚ => b.2 ≤ a.2) results) := by
  constructor
  · intro be c vectors metadata query k results h
    simp only [EmbeddingService.search] at h
    split at h
    · simp at h
    · rename_i qv _
      have hr : results =
          scoreResults metadata (faissSearch qv vectors (min k vectors.length)) :=
        (Except.ok.inj h).symm
      subst hr
      refine ⟨?_, scoreResults_sorted qv vectors metadata (min k vectors.length)⟩
      calc (scoreResults metadata (faissSearch qv vectors (min k vectors.length))).length
          ≤ (faissSearch qv vectors (min k vectors.length)).length :=
            scoreResults_length_le _ _
        _ ≤ min k vectors.length := by
            rw [faissSearch_length]
            exact min_le_left _ _
  · intro be vectors metadata query k results h
    simp only [App.search_similar_papers] at h
    split at h
    · simp at h
    · rename_i qv _
      have hr : results =
          scoreResults metadata (faissSearch qv vectors (min k vectors.length)) :=
        (Except.ok.inj h).symm
      subst hr
      refine ⟨?_, scoreResults_sorted qv vectors metadata (min k vectors.length)⟩
      calc (scoreResults metadata (faissSearch qv vectors (min k vectors.length))).length
          ≤ (faissSearch qv vectors (min k vectors.length)).length :=
            scoreResults_length_le _ _
        _ ≤ min k vectors.length := by
            rw [faissSearch_length]
            exact min_le_left _ _

/-- C2 witness: one stored (empty) vector, k = 5 — exactly one result. -/
theorem C2_search_bounded_sorted_witness :
    ([(mkPaper (str "x") [], 1 / (1 + 0))] : List (Paper × ℚ)).length ≤ min 5 1 ∧
    List.Pairwise (fun a b : Paper × ℚ => b.2 ≤ a.2)
      [(mkPaper (str "x") [], 1 / (1 + 0))] :=
  C2_search_bounded_sorted.1 emptyVecBE [] [[]] [mkPaper (str "x") []]
    (str "q") 5 [(mkPaper (str "x") [], 1 / (1 + 0))] rfl

/-- C8: every score attached by either search implementation
(`EmbeddingService.search` and `app.py` `search_similar_papers`) equals
`1 / (1 + d)` for `d` the squared Euclidean distance between the query
embedding and the indexed vector stored at the same position as the
returned paper; every score lies in `(0, 1]`; and the transform is
antitone in the distance. -/
theorem C8_score_transform :
    (∀ (be : Str → Option Vec) (c : Cache) (vectors : List Vec)
        (metadata : List Paper) (query : Str) (k : Nat)
        (results : List (Paper × ℚ)) (qv : Vec) (p : Paper) (s : ℚ),
        (EmbeddingService.get_embedding be c query true).result = .ok qv →
        EmbeddingService.search be c (some vectors) metadata query k = .ok results →
        (p, s) ∈ results →
        ∃ (i : Nat) (v : Vec), vectors[i]? = some v ∧ metadata[i]? = some p ∧
          s = 1 / (1 + sqDist qv v) ∧ 0 < s ∧ s ≤ 1) ∧
    (∀ (be : Str → Option Vec) (vectors : List Vec) (metadata : List Paper)
        (query : Str) (k : Nat) (results : List (Paper × ℚ)) (qv : Vec)
        (p : Paper) (s : ℚ),
        be (App.cleanText query) = some qv →
        App.search_similar_papers be (some vectors) metadata query k = .ok results →
        (p, s) ∈ results →
        ∃ (i : Nat) (v : Vec), vectors[i]? = some v ∧ metadata[i]? = some p ∧
          s = 1 / (1 + sqDist qv v) ∧ 0 < s ∧ s ≤ 1) ∧
    (∀ (q v1 v2 : Vec), sqDist q v1 ≤ sqDist q v2 →
        1 / (1 + sqDist q v2) ≤ 1 / (1 + sqDist q v1)) := by
  refine ⟨?_, ?_, ?_⟩
  · intro be c vectors metadata query k results qv p s hq h hmem
    simp only [EmbeddingService.search, hq] at h
    have hr : results =
        scoreResults metadata (faissSearch qv vectors (min k vectors.length)) :=
      (Except.ok.inj h).symm
    subst hr
    exact mem_scoreResults qv vectors metadata (min k vectors.length) p s hmem
  · intro be vectors metadata query k results qv p s hq h hmem
    simp only [App.search_similar_papers, hq] at h
    have hr : results =
        scoreResults metadata (faissSearch qv vectors (min k vectors.length)) :=
      (Except.ok.inj h).symm
    subst hr
    exact mem_scoreResults qv vectors metadata (min k vectors.length) p s hmem
  · intro q v1 v2 hle
    have h1 : 0 ≤ sqDist q v1 := sqDist_nonneg q v1
    exact one_div_le_one_div_of_le (by linarith) (by linarith)

/-- C8 witness: the single result of a concrete search, through each of
the two search implementations, indeed carries the score of its own
stored vector. -/
theorem C8_score_transform_witness :
    (∃ (i : Nat) (v : Vec), ([[]] : List Vec)[i]? = some v ∧
      ([mkPaper (str "x") []] : List Paper)[i]? = some (mkPaper (str "x") []) ∧
      (1 / (1 + 0) : ℚ) = 1 / (1 + sqDist [] v) ∧
      (0 : ℚ) < 1 / (1 + 0) ∧ (1 / (1 + 0) : ℚ) ≤ 1) ∧
    (∃ (i : Nat) (v : Vec), ([[]] : List Vec)[i]? = some v ∧
      ([mkPaper (str "y") []] : List Paper)[i]? = some (mkPaper (str "y") []) ∧
      (1 / (1 + 0) : ℚ) = 1 / (1 + sqDist [] v) ∧
      (0 : ℚ) < 1 / (1 + 0) ∧ (1 / (1 + 0) : ℚ) ≤ 1) :=
  ⟨C8_score_transform.1 emptyVecBE [] [[]] [mkPaper (str "x") []] (str "q") 5
    [(mkPaper (str "x") [], 1 / (1 + 0))] [] (mkPaper (str "x") []) (1 / (1 + 0))
    rfl rfl (List.mem_singleton.mpr rfl),
   C8_score_transform.2.1 emptyVecBE [[]] [mkPaper (str "y") []] (str "q") 5
    [(mkPaper (str "y") [], 1 / (1 + 0))] [] (mkPaper (str "y") []) (1 / (1 + 0))
    rfl rfl (List.mem_singleton.mpr rfl)⟩

theorem wrapFetch_faulty {α : Type} (process : α → List Paper)
    (r : HttpResult α) (hf : r.faulty) :
    swallow (wrapFetch process r) = [] := by
  cases r with
  | failure => rfl
  | success status body =>
    by_cases hs : 400 ≤ status
    · simp [wrapFetch, swallow, hs]
    · have hb : body = none := by
        rcases hf with h | h
        · exact absurd h hs
        · exact Option.isNone_iff_eq_none.mp h
      subst hb
      simp [wrapFetch, swallow, hs]

/-- C6 (amended): the four guarded per-source fetchers never raise — on
any transport, HTTP-status or parse error they return the empty list —
but the standalone `fetch_arxiv.py` fetcher has no handler: it propagates
transport and parse errors and explicitly raises on any non-200 status. -/
theorem C6_fetch_error_policy :
    (∀ r : HttpResult (List SSItem), r.faulty →
        App.fetch_semantic_scholar_papers r = []) ∧
    (∀ r : HttpResult (List ArxivEntry), r.faulty →
        App.fetch_arxiv_papers r = []) ∧
    (∀ r : HttpResult (List SSItem), r.faulty →
        PaperFetcher.fetch_semantic_scholar r = []) ∧
    (∀ r : HttpResult (List ArxivEntry), r.faulty →
        PaperFetcher.fetch_arxiv r = []) ∧
    (∀ (status : Nat) (body : Option (List ArxivEntry)), status ≠ 200 →
        Legacy.fetch_arxiv_papers (.success status body) =
          .error (.statusError status)) ∧
    Legacy.fetch_arxiv_papers .failure = .error .requestException := by
  refine ⟨?_, ?_, ?_, ?_, ?_, rfl⟩
  · exact fun r hf => wrapFetch_faulty _ r hf
  · exact fun r hf => wrapFetch_faulty _ r hf
  · exact fun r hf => wrapFetch_faulty _ r hf
  · exact fun r hf => wrapFetch_faulty _ r hf
  · intro status body hs
    simp [Legacy.fetch_arxiv_papers, hs]

/-- C6 counterexample: the claim says every per-source fetch returns an
empty sequence instead of propagating errors, but `fetch_arxiv.py`
propagates: a 404 status raises Exception("Error fetching data: 404"). -/
theorem C6_counterexample :
    Legacy.fetch_arxiv_papers (.success 404 none) = .error (.statusError 404) := rfl

/-- C6 witness: each guarded fetcher at a concrete faulty outcome, and
the legacy fetcher raising at a concrete non-200 status. -/
theorem C6_fetch_error_policy_witness :
    App.fetch_semantic_scholar_papers .failure = [] ∧
    App.fetch_arxiv_papers (.success 500 none) = [] ∧
    PaperFetcher.fetch_semantic_scholar (.success 404 (some [])) = [] ∧
    PaperFetcher.fetch_arxiv .failure = [] ∧
    Legacy.fetch_arxiv_papers (.success 503 (some [])) = .error (.statusError 503) :=
  ⟨C6_fetch_error_policy.1 _ trivial,
   C6_fetch_error_policy.2.1 _ (by decide),
   C6_fetch_error_policy.2.2.1 _ (by decide),
   C6_fetch_error_policy.2.2.2.1 _ trivial,
   C6_fetch_error_policy.2.2.2.2.1 503 (some []) (by decide)⟩

/-- C7: when fetching plus filtering yields zero papers, the coordinator
answers the distinct 404 "No papers found" error; the index-build step is
observationally reached only with a non-empty paper list (the pipeline
result never depends on what build does on the empty list); and even the
build function itself rejects an empty list with a 404. -/
theorem C7_no_results_is_404 :
    (∀ (fSS fAX : Str → Nat → List Paper) (be : Str → Option Vec)
        (text : Str) (sources : List Str) (m : Nat),
        pyStrip text ≠ [] →
        App.fetch_all_papers fSS fAX text sources m = .ok [] →
        App.recommend_papers fSS fAX be text sources m =
          .error ⟨404, "No papers found for the given query"⟩) ∧
    (∀ (fSS fAX : Str → Nat → List Paper)
        (b1 b2 : List Paper → Except App.HttpError (List Vec × List Paper))
        (be : Str → Option Vec) (text : Str) (sources : List Str) (m : Nat),
        (∀ ps, ps ≠ [] → b1 ps = b2 ps) →
        App.recommend_core fSS fAX b1 be text sources m =
          App.recommend_core fSS fAX b2 be text sources m) ∧
    (∀ be : Str → Option Vec,
        App.build_faiss_index be [] = .error ⟨404, "No papers to index"⟩) := by
  refine ⟨?_, ?_, ?_⟩
  · intro fSS fAX be text sources m htrim hfetch
    simp [App.recommend_papers, App.recommend_core, htrim, hfetch]
  · intro fSS fAX b1 b2 be text sources m hb
    simp only [App.recommend_core]
    by_cases ht : pyStrip text = []
    · simp [ht]
    · simp only [if_neg ht]
      cases hfetch : App.fetch_all_papers fSS fAX text sources m with
      | error e => simp [hfetch]
      | ok papers =>
        simp only [hfetch]
        by_cases hp : papers.isEmpty
        · simp [hp]
        · have hne : papers ≠ [] := by simpa [List.isEmpty_iff] using hp
          simp only [hp, Bool.false_eq_true, if_false]
          rw [hb papers hne]
  · intro be
    rfl

/-- C7 witness: fetchers returning nothing lead to the 404 error, and the
empty build is itself a 404. -/
theorem C7_no_results_is_404_witness :
    App.recommend_papers (fun _ _ => []) (fun _ _ => []) failBE
        (str "x") [str "arxiv"] 10 =
      .error ⟨404, "No papers found for the given query"⟩ ∧
    App.build_faiss_index failBE [] = .error ⟨404, "No papers to index"⟩ :=
  ⟨C7_no_results_is_404.1 _ _ failBE (str "x") [str "arxiv"] 10 (by decide) rfl,
   C7_no_results_is_404.2.2 failBE⟩

/-- C10: `fetch_all_papers` divides `max_results` by the number of
requested sources with no guard — the empty source list raises
ZeroDivisionError before any fetch — and for a non-empty source list the
only per-source limit ever passed to a fetcher is
`max_results // len(sources)` (the result depends on the fetchers only
through their value at that limit). -/
theorem C10_per_source_limit :
    (∀ (fSS fAX : Str → Nat → List Paper) (q : Str) (m : Nat),
        App.fetch_all_papers fSS fAX q [] m = .error .zeroDivisionError) ∧
    (∀ (fSS fSS2 fAX fAX2 : Str → Nat → List Paper) (q : Str)
        (sources : List Str) (m : Nat),
        sources ≠ [] →
        fSS q (m / sources.length) = fSS2 q (m / sources.length) →
        fAX q (m / sources.length) = fAX2 q (m / sources.length) →
        App.fetch_all_papers fSS fAX q sources m =
          App.fetch_all_papers fSS2 fAX2 q sources m) := by
  constructor
  · intro fSS fAX q m
    rfl
  · intro fSS fSS2 fAX fAX2 q sources m hs h1 h2
    have hlen : ¬ sources.length = 0 := by
      simpa [List.length_eq_zero] using hs
    simp only [App.fetch_all_papers, if_neg hlen]
    rw [h1, h2]

/-- C10 witness: the empty source list errors; with one source and
`max_results = 3` the fetchers are only consulted at limit `3 // 1 = 3`. -/
theorem C10_per_source_limit_witness :
    App.fetch_all_papers (fun _ _ => []) (fun _ _ => []) (str "q") [] 10 =
      .error .zeroDivisionError ∧
    App.fetch_all_papers
        (fun _ l => if l = 3 then [mkPaper (str "t") []] else []) (fun _ _ => [])
        (str "q") [str "semantic_scholar"] 3 =
      App.fetch_all_papers (fun _ _ => [mkPaper (str "t") []]) (fun _ _ => [])
        (str "q") [str "semantic_scholar"] 3 :=
  ⟨C10_per_source_limit.1 _ _ _ _,
   C10_per_source_limit.2 _ _ _ _ _ _ _ (by decide) rfl rfl⟩

end PaperMind
